import Mathlib

/-!
# Verification of the quic-rpc service-composition layer

This file gives a shallow embedding, in Lean 4, of the two source files of
the repository:

* `examples/modularize.rs` — the layered services `calc`, `clock`, `iroh`
  and `app`, with their aggregate `Request`/`Response` unions (tagged
  enums with `derive_more::From` widening and `derive_more::TryInto`
  narrowing), their handlers, and the recursive channel-mapping dispatch.
* `src/client.rs` — `RpcClient` (a connection plus a phantom service tag),
  its `new`/`into_inner`/`as_ref`/`map` operations, and `UpdateSink`.

Machine integers (`i64`) are modelled as `Int` with explicit two's
complement wrap-around where overflow matters.  Parts of the crate that
the repository only calls but does not ship under `src/` (the server
`RpcChannel` with its `rpc`/`server_streaming`/`map` entry points, the
mapped transport adapter, and the flume channel used by the clock
producer) are modelled from the specification; every such definition is
marked `Modelled from the spec:` in its doc comment.
-/

set_option autoImplicit false

namespace QuicRpc

/-- Two's complement wrap-around of an unbounded integer into the `i64`
range `[-2^63, 2^63)`; this is the value an `i64` addition produces in
release builds. -/
def wrap64 (n : Int) : Int := (n + 2 ^ 63) % 2 ^ 64 - 2 ^ 63

/-- The error a Mapped adapter's receive path reports when a received
outer value does not belong to the inner service. -/
structure MappingError : Type where
  deriving DecidableEq, Repr

namespace Calc

/-- Request message of the calc service's `add` RPC: `AddRequest(pub i64, pub i64)`. -/
structure AddRequest : Type where
  a : Int
  b : Int
  deriving DecidableEq, Repr

/-- Response message of the calc service's `add` RPC: `AddResponse(pub i64)`. -/
structure AddResponse : Type where
  sum : Int
  deriving DecidableEq, Repr

/-- Aggregate request union of the calc service. -/
inductive Request : Type where
  | Add : AddRequest → Request
  deriving DecidableEq, Repr

/-- Aggregate response union of the calc service. -/
inductive Response : Type where
  | Add : AddResponse → Response
  deriving DecidableEq, Repr

/-- Widening `From<AddRequest> for calc::Request` (derive_more::From). -/
def Request.fromAdd (r : AddRequest) : Request := .Add r

/-- Narrowing `TryInto<AddRequest> for calc::Request` (derive_more::TryInto). -/
def Request.tryIntoAdd : Request → Option AddRequest
  | .Add r => some r

/-- Widening `From<AddResponse> for calc::Response` (derive_more::From). -/
def Response.fromAdd (r : AddResponse) : Response := .Add r

/-- Narrowing `TryInto<AddResponse> for calc::Response` (derive_more::TryInto). -/
def Response.tryIntoAdd : Response → Option AddResponse
  | .Add r => some r

end Calc

namespace Clock

/-- Request message of the clock service's server-streaming `tick` RPC. -/
structure TickRequest : Type where
  deriving DecidableEq, Repr

/-- Response message of the clock service's `tick` stream: `TickResponse { tick: usize }`. -/
structure TickResponse : Type where
  tick : Nat
  deriving DecidableEq, Repr

/-- Aggregate request union of the clock service. -/
inductive Request : Type where
  | Tick : TickRequest → Request
  deriving DecidableEq, Repr

/-- Aggregate response union of the clock service. -/
inductive Response : Type where
  | Tick : TickResponse → Response
  deriving DecidableEq, Repr

/-- Widening `From<TickRequest> for clock::Request` (derive_more::From). -/
def Request.fromTick (r : TickRequest) : Request := .Tick r

/-- Narrowing `TryInto<TickRequest> for clock::Request` (derive_more::TryInto). -/
def Request.tryIntoTick : Request → Option TickRequest
  | .Tick r => some r

/-- Widening `From<TickResponse> for clock::Response` (derive_more::From). -/
def Response.fromTick (r : TickResponse) : Response := .Tick r

/-- Narrowing `TryInto<TickResponse> for clock::Response` (derive_more::TryInto). -/
def Response.tryIntoTick : Response → Option TickResponse
  | .Tick r => some r

end Clock

namespace Iroh

/-- Aggregate request union of the iroh layer, wrapping the whole calc and
clock request unions. -/
inductive Request : Type where
  | Calc : Calc.Request → Request
  | Clock : Clock.Request → Request
  deriving DecidableEq, Repr

/-- Aggregate response union of the iroh layer. -/
inductive Response : Type where
  | Calc : Calc.Response → Response
  | Clock : Clock.Response → Response
  deriving DecidableEq, Repr

/-- Widening `From<calc::Request> for iroh::Request` (derive_more::From). -/
def Request.fromCalc (r : Calc.Request) : Request := .Calc r

/-- Widening `From<clock::Request> for iroh::Request` (derive_more::From). -/
def Request.fromClock (r : Clock.Request) : Request := .Clock r

/-- Narrowing `TryInto<calc::Request> for iroh::Request` (derive_more::TryInto):
fails for variants belonging to other children. -/
def Request.tryIntoCalc : Request → Option Calc.Request
  | .Calc r => some r
  | _ => none

/-- Narrowing `TryInto<clock::Request> for iroh::Request` (derive_more::TryInto). -/
def Request.tryIntoClock : Request → Option Clock.Request
  | .Clock r => some r
  | _ => none

/-- Widening `From<calc::Response> for iroh::Response` (derive_more::From). -/
def Response.fromCalc (r : Calc.Response) : Response := .Calc r

/-- Widening `From<clock::Response> for iroh::Response` (derive_more::From). -/
def Response.fromClock (r : Clock.Response) : Response := .Clock r

/-- Narrowing `TryInto<calc::Response> for iroh::Response` (derive_more::TryInto). -/
def Response.tryIntoCalc : Response → Option Calc.Response
  | .Calc r => some r
  | _ => none

/-- Narrowing `TryInto<clock::Response> for iroh::Response` (derive_more::TryInto). -/
def Response.tryIntoClock : Response → Option Clock.Response
  | .Clock r => some r
  | _ => none

end Iroh

namespace App

/-- Request message of the app layer's own `AppVersion` RPC. -/
structure AppVersionRequest : Type where
  deriving DecidableEq, Repr

/-- Response message of the app layer's `AppVersion` RPC: a version string. -/
structure AppVersionResponse : Type where
  version : String
  deriving DecidableEq, Repr

/-- Aggregate request union of the app layer, wrapping the whole iroh
request union plus the app-specific request. -/
inductive Request : Type where
  | Iroh : Iroh.Request → Request
  | AppVersion : AppVersionRequest → Request
  deriving DecidableEq, Repr

/-- Aggregate response union of the app layer. -/
inductive Response : Type where
  | Iroh : Iroh.Response → Response
  | AppVersion : AppVersionResponse → Response
  deriving DecidableEq, Repr

/-- Widening `From<iroh::Request> for app::Request` (derive_more::From). -/
def Request.fromIroh (r : Iroh.Request) : Request := .Iroh r

/-- Widening `From<AppVersionRequest> for app::Request` (derive_more::From). -/
def Request.fromAppVersion (r : AppVersionRequest) : Request := .AppVersion r

/-- Narrowing `TryInto<iroh::Request> for app::Request` (derive_more::TryInto). -/
def Request.tryIntoIroh : Request → Option Iroh.Request
  | .Iroh r => some r
  | _ => none

/-- Narrowing `TryInto<AppVersionRequest> for app::Request` (derive_more::TryInto). -/
def Request.tryIntoAppVersion : Request → Option AppVersionRequest
  | .AppVersion r => some r
  | _ => none

/-- Widening `From<iroh::Response> for app::Response` (derive_more::From). -/
def Response.fromIroh (r : Iroh.Response) : Response := .Iroh r

/-- Widening `From<AppVersionResponse> for app::Response` (derive_more::From). -/
def Response.fromAppVersion (r : AppVersionResponse) : Response := .AppVersion r

/-- Narrowing `TryInto<iroh::Response> for app::Response` (derive_more::TryInto). -/
def Response.tryIntoIroh : Response → Option Iroh.Response
  | .Iroh r => some r
  | _ => none

/-- Narrowing `TryInto<AppVersionResponse> for app::Response` (derive_more::TryInto). -/
def Response.tryIntoAppVersion : Response → Option AppVersionResponse
  | .AppVersion r => some r
  | _ => none

end App

/-- Outcome of dispatching one accepted request: a unary dispatch sends
exactly one response on the channel, a server-streaming dispatch forwards
a lazily produced unbounded sequence of responses.  The type parameter is
the wire response type of the outer service the channel belongs to. -/
inductive DispatchResult (ρ : Type) : Type where
  | unary : ρ → DispatchResult ρ
  | streaming : (Nat → ρ) → DispatchResult ρ

/-- Modelled from the spec: the server `RpcChannel<S, E, SInner>`
(in `server.rs`, which is not under `src/`) denotationally.  The channel
represents one accepted request's reply path; everything a handler sends
through it for the inner service `SInner` is widened into the outer
service's wire response type `ρ` before being written to the transport,
so the channel is captured by that composed widening function. -/
structure RpcChannel (ρ InnerRes : Type) : Type where
  wrap : InnerRes → ρ

/-- Modelled from the spec: `RpcChannel::map` produces a channel bound to
one constituent child service; a child response is widened into the
parent response (via the `From` instance `widen`) and then sent through
the parent channel. -/
def RpcChannel.mapChan {ρ InnerRes NextRes : Type} (c : RpcChannel ρ InnerRes)
    (widen : NextRes → InnerRes) : RpcChannel ρ NextRes :=
  ⟨fun r => c.wrap (widen r)⟩

/-- Modelled from the spec: `RpcChannel::rpc` (dispatch_unary) invokes
`handler(state, request)` to obtain one response, widens it into the
inner service's response union (via the `Into` instance `widen`) and then
through the channel into the wire type, and sends it. -/
def RpcChannel.rpc {ρ InnerRes σ MReq MRes : Type} (c : RpcChannel ρ InnerRes)
    (widen : MRes → InnerRes) (req : MReq) (state : σ) (f : σ → MReq → MRes) :
    DispatchResult ρ :=
  .unary (c.wrap (widen (f state req)))

/-- Modelled from the spec: `RpcChannel::server_streaming`
(dispatch_server_streaming) invokes `handler(state, request)` to obtain a
lazily produced sequence of responses and forwards each item onto the
channel, widened into the wire type. -/
def RpcChannel.serverStreaming {ρ InnerRes σ MReq MRes : Type}
    (c : RpcChannel ρ InnerRes) (widen : MRes → InnerRes) (req : MReq)
    (state : σ) (f : σ → MReq → Nat → MRes) : DispatchResult ρ :=
  .streaming (fun n => c.wrap (widen (f state req n)))

namespace Calc

/-- Handler of the calc service: `#[derive(Clone, Default)] pub struct Handler;`
(stateless). -/
structure Handler : Type where
  deriving DecidableEq, Repr

/-- The calc service's unary add handler: `AddResponse(req.0 + req.1)`.
The `i64` addition is modelled with two's complement wrap-around (the
release-build semantics of the Rust `+`). -/
def Handler.on_add (_h : Handler) (req : AddRequest) : AddResponse :=
  ⟨wrap64 (req.a + req.b)⟩

/-- The calc handler's dispatch entry point: classifies the request
variant and resolves `Add` via a unary rpc dispatch on the (possibly
mapped) channel. -/
def Handler.handle_rpc_request {ρ : Type} (h : Handler)
    (chan : RpcChannel ρ Response) : Request → DispatchResult ρ
  | .Add req => chan.rpc Response.fromAdd req h Handler.on_add

end Calc

namespace Clock

/-- Handler of the clock service.  The Rust handler owns a shared counter
`tick: Arc<RwLock<usize>>` and a `Notify`; the periodic background task
spawned by `Handler::new` increments the counter and notifies all
waiters, and each subscription loop in `on_tick0` reads the counter
under a read lock once per wake and sends it.  For the dispatch plumbing
a subscription's stream is captured by the trace `reads`, where
`reads n` is the value the subscription sends at its n-th iteration; the
shared counter itself, the increment-only producer and the interleaving
of the two tasks are embedded below (`tickIncr`, `Event`,
`observedTicks`), from which the monotonicity of every realizable trace
is proven rather than assumed. -/
structure Handler : Type where
  reads : Nat → Nat

/-- Body of one iteration of the subscriber loop in `on_tick0`: read the
shared counter and send `TickResponse { tick }` downstream; the n-th
iteration sends the counter value at the n-th read point. -/
def Handler.on_tick (h : Handler) (_req : TickRequest) : Nat → TickResponse :=
  fun n => ⟨h.reads n⟩

/-- The clock handler's dispatch entry point: classifies the request
variant and resolves `Tick` via a server-streaming dispatch on the
(possibly mapped) channel. -/
def Handler.handle_rpc_request {ρ : Type} (h : Handler)
    (chan : RpcChannel ρ Response) : Request → DispatchResult ρ
  | .Tick req => chan.serverStreaming Response.fromTick req h Handler.on_tick

/-- One increment step of the periodic producer task spawned by
`clock::Handler::new`: `*h2.tick.write().unwrap() += 1` — the background
task only ever adds one to the shared counter. -/
def tickIncr (c : Nat) : Nat := c + 1

/-- Event of the shared-counter protocol of the clock service, one item
of an interleaving of the two tasks: `incr` is one iteration of the
producer loop of `clock::Handler::new` (take the write lock, increment
the counter, notify all waiters); `read` is one iteration of one
subscriber's loop in `on_tick0` (read the counter under the read lock,
send `TickResponse { tick }` downstream, await the next wake).  Reads of
other subscribers do not change the counter and need not appear. -/
inductive Event : Type where
  | incr : Event
  | read : Event
  deriving DecidableEq, Repr

/-- Run of the shared counter against an arbitrary interleaving of
producer increments and one subscriber's read-and-send iterations,
starting from counter value `c` (the handler is built with
`tick: Default::default()`, so a run starts at `0`): an `incr` event
advances the counter by `tickIncr`, a `read` event leaves the counter
unchanged and emits the response the subscriber sends at that iteration.
The result is the subscriber's full observed sequence of responses. -/
def observedTicks : List Event → Nat → List TickResponse
  | [], _ => []
  | .incr :: es, c => observedTicks es (tickIncr c)
  | .read :: es, c => ⟨c⟩ :: observedTicks es c

end Clock

namespace Iroh

/-- Handler of the iroh layer: composes the calc and clock sub-handlers. -/
structure Handler : Type where
  calcH : Calc.Handler
  clock : Clock.Handler

/-- The iroh handler's dispatch entry point: classifies the accepted
request as wrapping one child service's entire request union, maps the
channel to the child's types and recursively delegates. -/
def Handler.handle_rpc_request {ρ : Type} (h : Handler)
    (chan : RpcChannel ρ Response) : Request → DispatchResult ρ
  | .Calc req => h.calcH.handle_rpc_request (chan.mapChan Response.fromCalc) req
  | .Clock req => h.clock.handle_rpc_request (chan.mapChan Response.fromClock) req

end Iroh

namespace App

/-- Handler of the app layer: the iroh sub-handler plus the configured
`app_version` string. -/
structure Handler : Type where
  iroh : Iroh.Handler
  app_version : String

/-- Modelled from the spec: `on_version` answers an `AppVersion` request
with the configured version string.  The Rust body reads `self.version`,
a field that does not exist on `app::Handler` (the field is named
`app_version`), so the source as written does not compile; this
definition follows the spec's intent of returning the configured
version string. -/
def Handler.on_version (h : Handler) (_req : AppVersionRequest) : AppVersionResponse :=
  ⟨h.app_version⟩

/-- The app handler's dispatch entry point: delegates `Iroh`-wrapped
requests to the iroh handler through a mapped channel and resolves
`AppVersion` directly via a unary rpc dispatch. -/
def Handler.handle_rpc_request {ρ : Type} (h : Handler)
    (chan : RpcChannel ρ Response) : Request → DispatchResult ρ
  | .Iroh req => h.iroh.handle_rpc_request (chan.mapChan Response.fromIroh) req
  | .AppVersion req => chan.rpc Response.fromAppVersion req h Handler.on_version

end App

/-- The identity channel: the channel an accepted request of the outer
service is first paired with, before any mapping. -/
def RpcChannel.idChan (ρ : Type) : RpcChannel ρ ρ := ⟨fun r => r⟩

/-- Client handle from `src/client.rs`: `pub struct RpcClient<S, C>` owns
the connection `source` plus a phantom service tag `S` and nothing else. -/
structure RpcClient (S C : Type) : Type where
  source : C

/-- Mapped connection adapter (declared in `transport/mapped.rs`, which is
not under `src/`): `MappedConnection<In, Out, C>` wraps the inner
connection; the `In`/`Out` parameters are phantom wire types, the
conversions come from trait bounds at the use sites. -/
structure MappedConnection (In Out C : Type) : Type where
  inner : C

/-- Modelled from the spec: `ConnectionMapExt::map` from
`transport/mapped.rs` (not under `src/`) wraps an existing connection in
the Mapped adapter without owning new transport resources — adapters add
translation, not new resources. -/
def connectionMap (In Out : Type) {C : Type} (c : C) : MappedConnection In Out C :=
  ⟨c⟩

/-- Constructor `RpcClient::new(source)`: stores the connection and the
phantom tag, nothing more. -/
def RpcClient.new (S : Type) {C : Type} (source : C) : RpcClient S C :=
  ⟨source⟩

/-- Accessor `RpcClient::into_inner(self) -> C`: returns the underlying
connection. -/
def RpcClient.into_inner {S C : Type} (cl : RpcClient S C) : C :=
  cl.source

/-- Accessor `AsRef<C> for RpcClient<S, C>`: borrows the underlying
connection (references collapse to values in this embedding). -/
def RpcClient.as_ref {S C : Type} (cl : RpcClient S C) : C :=
  cl.source

/-- Method `RpcClient::map::<SNext>()`: builds a new client whose
connection is the Mapped adapter over the current one,
`RpcClient::new(self.source.map::<SNext::Res, SNext::Req>())`.  The
associated types `SNext::Res` and `SNext::Req` are passed as the explicit
parameters `ResN` and `ReqN`. -/
def RpcClient.map (SNext ResN ReqN : Type) {S C : Type} (cl : RpcClient S C) :
    RpcClient SNext (MappedConnection ResN ReqN C) :=
  RpcClient.new SNext (connectionMap ResN ReqN cl.source)

/-- Poll-style readiness result of the futures `Sink` interface. -/
inductive Poll (α : Type) : Type where
  | pending : Poll α
  | ready : α → Poll α
  deriving DecidableEq, Repr

/-- Interface of a connection's send sink (`C::SendSink` with item type
`Out` and error type `ε`), modelled as explicit state passing over a sink
state `σ`: each futures `Sink` method consumes a state and returns the
new state plus its result. -/
structure SendSinkOps (σ Out ε : Type) : Type where
  poll_ready : σ → σ × Poll (Except ε Unit)
  start_send : σ → Out → σ × Except ε Unit
  poll_flush : σ → σ × Poll (Except ε Unit)
  poll_close : σ → σ × Poll (Except ε Unit)

/-- Update sink from `src/client.rs`:
`pub struct UpdateSink<C, T>(pub C::SendSink, PhantomData<T>)` — the
underlying send sink state plus a phantom item type. -/
structure UpdateSink (σ T : Type) : Type where
  sink : σ

/-- Constructor `UpdateSink::new(sink)`. -/
def UpdateSink.new {σ : Type} (T : Type) (s : σ) : UpdateSink σ T :=
  ⟨s⟩

/-- Method `Sink::start_send` of `UpdateSink`: `let req = item.into();
self.project().0.start_send(req)` — widen the item into the wire type
via the total conversion `into`, then forward exactly that value to the
underlying sink.  The error type is the underlying sink's error type
`ε` unchanged. -/
def UpdateSink.start_send {σ Out ε T : Type} (ops : SendSinkOps σ Out ε)
    (into : T → Out) (u : UpdateSink σ T) (item : T) : UpdateSink σ T × Except ε Unit :=
  let req := into item
  let p := ops.start_send u.sink req
  (⟨p.1⟩, p.2)

/-- Method `Sink::poll_ready` of `UpdateSink`: delegates to the
underlying sink without alteration. -/
def UpdateSink.poll_ready {σ Out ε T : Type} (ops : SendSinkOps σ Out ε)
    (u : UpdateSink σ T) : UpdateSink σ T × Poll (Except ε Unit) :=
  let p := ops.poll_ready u.sink
  (⟨p.1⟩, p.2)

/-- Method `Sink::poll_flush` of `UpdateSink`: delegates to the
underlying sink without alteration. -/
def UpdateSink.poll_flush {σ Out ε T : Type} (ops : SendSinkOps σ Out ε)
    (u : UpdateSink σ T) : UpdateSink σ T × Poll (Except ε Unit) :=
  let p := ops.poll_flush u.sink
  (⟨p.1⟩, p.2)

/-- Method `Sink::poll_close` of `UpdateSink`: delegates to the
underlying sink without alteration. -/
def UpdateSink.poll_close {σ Out ε T : Type} (ops : SendSinkOps σ Out ε)
    (u : UpdateSink σ T) : UpdateSink σ T × Poll (Except ε Unit) :=
  let p := ops.poll_close u.sink
  (⟨p.1⟩, p.2)

/-- Concrete send sink that records every accepted item in order; used to
observe exactly which values `UpdateSink` forwards. -/
def bufferSink (Out ε : Type) : SendSinkOps (List Out) Out ε where
  poll_ready := fun s => (s, .ready (.ok ()))
  start_send := fun s o => (s ++ [o], .ok ())
  poll_flush := fun s => (s, .ready (.ok ()))
  poll_close := fun s => (s, .ready (.ok ()))

/-- Modelled from the spec: the mapped receive path narrows each inbound
outer response to the inner type via the partial `TryFrom` conversion,
failing with a mapping error if the value does not belong to the inner
service (`transport/mapped.rs` is not under `src/`). -/
def mappedRecv {ρO ρI : Type} (narrow : ρO → Option ρI) (res : ρO) :
    Except MappingError ρI :=
  match narrow res with
  | some x => .ok x
  | none => .error ⟨⟩

/-- Run of the producer loop of `clock::Handler::on_tick0`, with explicit
fuel.  Each iteration reads the shared counter (`reads i` at the i-th
iteration), then attempts `tx.send_async(TickResponse { tick }).await?`.
Modelled from the spec for the flume channel (not under `src/`): the send
succeeds while the receiving side is alive (`openAt i = true`) and fails
once the produced sequence has been dropped, and the `?` operator then
propagates the error out of the loop.  The result is the list of
responses sent so far paired with `true` when the loop has terminated by
error propagation (`false` means the loop was still running when the
fuel ran out). -/
def on_tick0_run (reads : Nat → Nat) (openAt : Nat → Bool) :
    Nat → Nat → List Clock.TickResponse × Bool
  | 0, _ => ([], false)
  | fuel + 1, i =>
    if openAt i then
      let p := on_tick0_run reads openAt fuel (i + 1)
      (⟨reads i⟩ :: p.1, p.2)
    else
      ([], true)

end QuicRpc

namespace QuicRpc

/-- C1: for every pair of `i64` arguments `(a, b)`, an `Add` request
routed through the composed app service (the app handler classifies the
`Iroh` variant, maps the channel, delegates to the iroh handler, which
classifies the `Calc` variant, maps again, and delegates to the calc
handler) yields the identical response as dispatching the same `Add`
request against the calc service's handler directly: the app route sends
exactly the direct calc response, wrapped by the composed widening. -/
theorem add_route_equals_direct (h : App.Handler) (a b : Int) :
    ∃ r : Calc.Response,
      Calc.Handler.handle_rpc_request h.iroh.calcH (RpcChannel.idChan Calc.Response)
          (.Add ⟨a, b⟩) = .unary r ∧
      App.Handler.handle_rpc_request h (RpcChannel.idChan App.Response)
          (.Iroh (.Calc (.Add ⟨a, b⟩))) = .unary (.Iroh (.Calc r)) :=
  ⟨.Add (Calc.Handler.on_add h.iroh.calcH ⟨a, b⟩), rfl, rfl⟩

/-- C2: for every constituent message value of every service layer,
wrapping the value into the parent aggregate union via the total widening
conversion and then narrowing it back via the partial extraction yields
the original value unchanged — stated for all twelve parent/child pairs
of the four layers. -/
theorem wrap_then_unwrap_identity :
    (∀ r, Calc.Request.tryIntoAdd (Calc.Request.fromAdd r) = some r) ∧
    (∀ r, Calc.Response.tryIntoAdd (Calc.Response.fromAdd r) = some r) ∧
    (∀ r, Clock.Request.tryIntoTick (Clock.Request.fromTick r) = some r) ∧
    (∀ r, Clock.Response.tryIntoTick (Clock.Response.fromTick r) = some r) ∧
    (∀ r, Iroh.Request.tryIntoCalc (Iroh.Request.fromCalc r) = some r) ∧
    (∀ r, Iroh.Request.tryIntoClock (Iroh.Request.fromClock r) = some r) ∧
    (∀ r, Iroh.Response.tryIntoCalc (Iroh.Response.fromCalc r) = some r) ∧
    (∀ r, Iroh.Response.tryIntoClock (Iroh.Response.fromClock r) = some r) ∧
    (∀ r, App.Request.tryIntoIroh (App.Request.fromIroh r) = some r) ∧
    (∀ r, App.Request.tryIntoAppVersion (App.Request.fromAppVersion r) = some r) ∧
    (∀ r, App.Response.tryIntoIroh (App.Response.fromIroh r) = some r) ∧
    (∀ r, App.Response.tryIntoAppVersion (App.Response.fromAppVersion r) = some r) :=
  ⟨fun _ => rfl, fun _ => rfl, fun _ => rfl, fun _ => rfl, fun _ => rfl,
   fun _ => rfl, fun _ => rfl, fun _ => rfl, fun _ => rfl, fun _ => rfl,
   fun _ => rfl, fun _ => rfl⟩

/-- C3: an aggregate value that belongs to a different child than a
Mapped adapter's inner service — for each of the three adapters of the
composition: an `iroh::Response` carrying the `Clock` variant narrowed
toward the calc service, an `iroh::Response` carrying the `Calc` variant
narrowed toward the clock service, and an `app::Response` carrying the
`AppVersion` variant narrowed toward iroh — yields a mapping-error
result on the mapped receive path, and never silently succeeds (the
model is a total function, so no panic is possible). -/
theorem mapped_recv_wrong_child_errors :
    (∀ c : Clock.Response,
      mappedRecv Iroh.Response.tryIntoCalc (.Clock c) = .error ⟨⟩) ∧
    (∀ c : Clock.Response, ∀ x : Calc.Response,
      mappedRecv Iroh.Response.tryIntoCalc (.Clock c) ≠ .ok x) ∧
    (∀ c : Calc.Response,
      mappedRecv Iroh.Response.tryIntoClock (.Calc c) = .error ⟨⟩) ∧
    (∀ c : Calc.Response, ∀ x : Clock.Response,
      mappedRecv Iroh.Response.tryIntoClock (.Calc c) ≠ .ok x) ∧
    (∀ v : App.AppVersionResponse,
      mappedRecv App.Response.tryIntoIroh (.AppVersion v) = .error ⟨⟩) ∧
    (∀ v : App.AppVersionResponse, ∀ x : Iroh.Response,
      mappedRecv App.Response.tryIntoIroh (.AppVersion v) ≠ .ok x) :=
  ⟨fun _ => rfl, fun _ _ => fun hcontra => by simp [mappedRecv, Iroh.Response.tryIntoCalc] at hcontra,
   fun _ => rfl, fun _ _ => fun hcontra => by simp [mappedRecv, Iroh.Response.tryIntoClock] at hcontra,
   fun _ => rfl, fun _ _ => fun hcontra => by simp [mappedRecv, App.Response.tryIntoIroh] at hcontra⟩

/-- C4 (intended behaviour; the source as written reads the nonexistent
field `self.version` and does not compile): handling an `AppVersion`
request returns the handler's configured `app_version` string, and the
result is unchanged under replacing the iroh sub-handler (calc and
clock) wholesale, so neither child handler is invoked. -/
theorem app_version_returns_configured (h : App.Handler) (req : App.AppVersionRequest) :
    App.Handler.handle_rpc_request h (RpcChannel.idChan App.Response) (.AppVersion req)
        = .unary (.AppVersion ⟨h.app_version⟩) ∧
    ∀ sub : Iroh.Handler,
      App.Handler.handle_rpc_request ⟨sub, h.app_version⟩
          (RpcChannel.idChan App.Response) (.AppVersion req)
        = App.Handler.handle_rpc_request h (RpcChannel.idChan App.Response) (.AppVersion req) :=
  ⟨rfl, fun _ => rfl⟩

/-- C4 witness: the theorem instantiated at a concrete handler. -/
theorem app_version_returns_configured_witness :
    App.Handler.handle_rpc_request ⟨⟨⟨⟩, ⟨fun n => n⟩⟩, "1.0"⟩
        (RpcChannel.idChan App.Response) (.AppVersion ⟨⟩)
      = .unary (.AppVersion ⟨"1.0"⟩) :=
  (app_version_returns_configured ⟨⟨⟨⟩, ⟨fun n => n⟩⟩, "1.0"⟩ ⟨⟩).1

/-- C5 counterexample: the claim `on_add(AddRequest(a, b)) = AddResponse(a + b)`
fails for all `i64` pairs at `a = 2^63 - 1`, `b = 1`: the `i64` addition
wraps around instead of producing the mathematical sum. -/
theorem on_add_overflow_counterexample :
    Calc.Handler.on_add ⟨⟩ ⟨9223372036854775807, 1⟩
      ≠ (⟨9223372036854775807 + 1⟩ : Calc.AddResponse) := by
  decide

/-- C5 (amended): whenever the mathematical sum of the two `i64`
components fits in the `i64` range, `on_add` returns exactly that sum:
`on_add(AddRequest(a, b)) = AddResponse(a + b)`. -/
theorem on_add_returns_sum (a b : Int)
    (ha1 : -(2 ^ 63) ≤ a) (ha2 : a < 2 ^ 63)
    (hb1 : -(2 ^ 63) ≤ b) (hb2 : b < 2 ^ 63)
    (hs1 : -(2 ^ 63) ≤ a + b) (hs2 : a + b < 2 ^ 63) :
    Calc.Handler.on_add ⟨⟩ ⟨a, b⟩ = ⟨a + b⟩ := by
  simp only [Calc.Handler.on_add]
  congr 1
  unfold wrap64
  omega

/-- C5 witness: `Add(40, 2)` returns `42`. -/
theorem on_add_returns_sum_witness :
    Calc.Handler.on_add ⟨⟩ ⟨40, 2⟩ = ⟨42⟩ := by
  have h := on_add_returns_sum 40 2 (by decide) (by decide) (by decide)
    (by decide) (by decide) (by decide)
  simpa using h

/-- Auxiliary lower bound: every response a subscriber emits during a
run that starts at counter value `c` carries a tick of at least `c`,
because the counter is only ever incremented. -/
theorem observedTicks_le_of_mem (es : List Clock.Event) :
    ∀ (c : Nat) (r : Clock.TickResponse), r ∈ Clock.observedTicks es c → c ≤ r.tick := by
  induction es with
  | nil =>
    intro c r hr
    simp [Clock.observedTicks] at hr
  | cons e es ih =>
    intro c r hr
    cases e with
    | incr =>
      have h := ih (Clock.tickIncr c) r (by simpa [Clock.observedTicks] using hr)
      simp only [Clock.tickIncr] at h
      omega
    | read =>
      simp only [Clock.observedTicks, List.mem_cons] at hr
      rcases hr with rfl | hr
      · exact Nat.le_refl c
      · exact ih c r hr

/-- Auxiliary induction: the sequence of tick values one subscriber
observes during a run against an arbitrary interleaving is sorted. -/
theorem observedTicks_sorted (es : List Clock.Event) :
    ∀ c : Nat,
      List.Sorted (· ≤ ·) ((Clock.observedTicks es c).map Clock.TickResponse.tick) := by
  induction es with
  | nil =>
    intro c
    simp [Clock.observedTicks]
  | cons e es ih =>
    intro c
    cases e with
    | incr => simpa [Clock.observedTicks] using ih (Clock.tickIncr c)
    | read =>
      simp only [Clock.observedTicks, List.map_cons]
      refine List.sorted_cons.mpr ⟨?_, ih c⟩
      intro b hb
      obtain ⟨r, hr, rfl⟩ := List.mem_map.mp hb
      exact observedTicks_le_of_mem es c r hr

/-- Auxiliary: a block of `k` producer increments before any subscriber
activity advances the counter by exactly `k`. -/
theorem observedTicks_replicate_incr (k : Nat) :
    ∀ (c : Nat) (es : List Clock.Event),
      Clock.observedTicks (List.replicate k Clock.Event.incr ++ es) c
        = Clock.observedTicks es (c + k) := by
  induction k with
  | zero =>
    intro c es
    simp
  | succ k ih =>
    intro c es
    simp only [List.replicate_succ, List.cons_append, Clock.observedTicks]
    show Clock.observedTicks (List.replicate k Clock.Event.incr ++ es) (Clock.tickIncr c)
        = Clock.observedTicks es (c + (k + 1))
    rw [ih (Clock.tickIncr c) es]
    refine congrArg (Clock.observedTicks es) ?_
    simp only [Clock.tickIncr]
    omega

/-- C6: against every interleaving of the increment-only producer of
`clock::Handler::new` with one subscriber's read-and-send loop of
`on_tick0`, the full sequence of tick values the subscriber observes is
sorted (non-decreasing, with intermediate values possibly skipped but
never a decrease), with no assumption on the interleaving; a subscriber
whose first read happens after the producer has incremented the shared
counter `k` times observes `k` as its first value, hence at least `n`
for every `n ≤ k` (in particular `n = 3`).  The first conjunct ties the
subscription stream to the clock service's dispatch entry point. -/
theorem tick_observed_monotone :
    (∀ h : Clock.Handler,
      Clock.Handler.handle_rpc_request h (RpcChannel.idChan Clock.Response) (.Tick ⟨⟩)
        = .streaming (fun k => .Tick (Clock.Handler.on_tick h ⟨⟩ k))) ∧
    (∀ es : List Clock.Event,
      List.Sorted (· ≤ ·) ((Clock.observedTicks es 0).map Clock.TickResponse.tick)) ∧
    (∀ (k : Nat) (post : List Clock.Event),
      (Clock.observedTicks
          (List.replicate k Clock.Event.incr ++ Clock.Event.read :: post) 0).head?
        = some ⟨k⟩) ∧
    (∀ (n k : Nat) (post : List Clock.Event), n ≤ k →
      n ≤ ((Clock.observedTicks
          (List.replicate k Clock.Event.incr ++ Clock.Event.read :: post) 0).head?.getD
            ⟨0⟩).tick) := by
  refine ⟨fun _ => rfl, fun es => observedTicks_sorted es 0, ?_, ?_⟩
  · intro k post
    rw [observedTicks_replicate_incr k 0 (Clock.Event.read :: post)]
    simp [Clock.observedTicks]
  · intro n k post hnk
    rw [observedTicks_replicate_incr k 0 (Clock.Event.read :: post)]
    simpa [Clock.observedTicks] using hnk

/-- C6 witness: a concrete interleaving — three increments, a first read,
one further increment, a second read — observes the sorted sequence
`3, 4` with first value `3 ≥ 3`. -/
theorem tick_observed_monotone_witness :
    List.Sorted (· ≤ ·)
      ((Clock.observedTicks
          [Clock.Event.incr, Clock.Event.incr, Clock.Event.incr, Clock.Event.read,
           Clock.Event.incr, Clock.Event.read] 0).map Clock.TickResponse.tick) ∧
    (Clock.observedTicks
        (List.replicate 3 Clock.Event.incr ++ Clock.Event.read ::
          [Clock.Event.incr, Clock.Event.read]) 0).head? = some ⟨3⟩ ∧
    3 ≤ ((Clock.observedTicks
        (List.replicate 3 Clock.Event.incr ++ Clock.Event.read ::
          [Clock.Event.incr, Clock.Event.read]) 0).head?.getD ⟨0⟩).tick :=
  ⟨tick_observed_monotone.2.1 _,
   tick_observed_monotone.2.2.1 3 _,
   tick_observed_monotone.2.2.2 3 3 _ (Nat.le_refl 3)⟩

/-- Auxiliary induction for the producer loop: started at index `i` with
the channel open for exactly the next `k` attempts, the loop on any
sufficient fuel emits exactly those `k` responses and then terminates by
error propagation. -/
theorem on_tick0_run_stops (reads : Nat → Nat) (openAt : Nat → Bool) :
    ∀ (k i fuel : Nat), openAt (i + k) = false → (∀ j, j < k → openAt (i + j) = true) →
      k < fuel →
      on_tick0_run reads openAt fuel i
        = ((List.range k).map (fun j => ⟨reads (i + j)⟩), true) := by
  intro k
  induction k with
  | zero =>
    intro i fuel hclosed _ hfuel
    obtain ⟨f, rfl⟩ := Nat.exists_eq_succ_of_ne_zero (Nat.pos_iff_ne_zero.mp hfuel)
    simp only [on_tick0_run, Nat.add_zero] at *
    simp [hclosed]
  | succ k ih =>
    intro i fuel hclosed hopen hfuel
    obtain ⟨f, rfl⟩ := Nat.exists_eq_succ_of_ne_zero
      (Nat.pos_iff_ne_zero.mp (Nat.lt_of_le_of_lt (Nat.zero_le _) hfuel))
    have hi : openAt i = true := by
      have := hopen 0 (Nat.succ_pos k)
      simpa using this
    have hrec := ih (i + 1) f
      (by have : i + 1 + k = i + (k + 1) := by omega
          rw [this]; exact hclosed)
      (fun j hj => by
        have : i + 1 + j = i + (j + 1) := by omega
        rw [this]; exact hopen (j + 1) (Nat.succ_lt_succ hj))
      (Nat.lt_of_succ_lt_succ hfuel)
    simp only [on_tick0_run, hi, if_true, hrec]
    refine Prod.ext ?_ rfl
    simp only [List.range_succ_eq_map, List.map_cons, List.map_map, Nat.add_zero]
    refine congrArg₂ List.cons rfl ?_
    refine congrArg (fun f => List.map f (List.range k)) ?_
    funext j
    exact congrArg (fun m => (⟨reads m⟩ : Clock.TickResponse)) (by omega)

/-- C7: after the client drops the produced sequence (the channel is open
for the first `k` send attempts and closed from attempt `k` on), the
producer loop of `on_tick0` terminates: the send attempt `k` returns an
error, the loop exits via error propagation, and exactly the first `k`
responses were emitted — no further items regardless of how much longer
the loop could have run. -/
theorem producer_stops_after_drop (reads : Nat → Nat) (openAt : Nat → Bool) (k : Nat)
    (hclosed : openAt k = false) (hopen : ∀ j, j < k → openAt j = true) :
    ∀ fuel, k < fuel →
      on_tick0_run reads openAt fuel 0
        = ((List.range k).map (fun j => ⟨reads j⟩), true) := by
  intro fuel hfuel
  have h := on_tick0_run_stops reads openAt k 0 fuel (by simpa using hclosed)
    (fun j hj => by simpa using hopen j hj) hfuel
  simpa using h

/-- C7 witness: with the channel dropped after two delivered items, three
loop iterations suffice to observe termination with exactly the two
emitted responses. -/
theorem producer_stops_after_drop_witness :
    on_tick0_run (fun j => j) (fun i => decide (i < 2)) 3 0
      = ((List.range 2).map (fun j => ⟨j⟩), true) :=
  producer_stops_after_drop (fun j => j) (fun i => decide (i < 2)) 2
    (by decide) (fun j hj => decide_eq_true hj) 3 (by decide)

/-- C8: `RpcClient::map::<SNext>()` returns a new client handle whose
connection is exactly the Mapped adapter wrapped over the current
connection, and the construction chains: mapping twice yields the Mapped
adapter nested twice over the original connection. -/
theorem client_map_wraps_mapped (S C SNext ResN ReqN : Type) (cl : RpcClient S C) :
    (RpcClient.map SNext ResN ReqN cl).source = connectionMap ResN ReqN cl.source ∧
    (RpcClient.map SNext ResN ReqN cl).source.inner = cl.source ∧
    ∀ S2 R2 Q2 : Type,
      (RpcClient.map S2 R2 Q2 (RpcClient.map SNext ResN ReqN cl)).source
        = ⟨⟨cl.source⟩⟩ :=
  ⟨rfl, rfl, fun _ _ _ => rfl⟩

/-- C9: `UpdateSink::start_send` widens the item via the total conversion
and forwards exactly that widened value to the underlying send sink
(observed on a recording sink: the widened item, and nothing else, is
appended); `poll_ready`, `poll_flush` and `poll_close` delegate to the
underlying sink without alteration; the error type is the underlying
send-error type unchanged (visible in the statement's types). -/
theorem update_sink_widens_and_delegates (σ Out ε T : Type)
    (ops : SendSinkOps σ Out ε) (into : T → Out) (u : UpdateSink σ T) (item : T) :
    (UpdateSink.start_send ops into u item).1.sink = (ops.start_send u.sink (into item)).1 ∧
    (UpdateSink.start_send ops into u item).2 = (ops.start_send u.sink (into item)).2 ∧
    (UpdateSink.poll_ready ops u).2 = (ops.poll_ready u.sink).2 ∧
    (UpdateSink.poll_flush ops u).2 = (ops.poll_flush u.sink).2 ∧
    (UpdateSink.poll_close ops u).2 = (ops.poll_close u.sink).2 ∧
    (∀ l : List Out,
      (UpdateSink.start_send (bufferSink Out ε) into (⟨l⟩ : UpdateSink (List Out) T) item).1.sink
        = l ++ [into item]) :=
  ⟨rfl, rfl, rfl, rfl, rfl, fun _ => rfl⟩

/-- C10: constructing a client handle with `RpcClient::new(c)` and then
calling `into_inner` returns exactly `c`; `as_ref` yields that same
connection; and rebuilding a client from its extracted connection gives
back the whole handle, so construction adds no state beyond the
connection and the phantom service tag. -/
theorem client_new_into_inner_roundtrip (S C : Type) (c : C) :
    (RpcClient.new S c).into_inner = c ∧
    (RpcClient.new S c).as_ref = c ∧
    ∀ cl : RpcClient S C, RpcClient.new S cl.into_inner = cl :=
  ⟨rfl, rfl, fun _ => rfl⟩

end QuicRpc
